import Mathlib

/-!
# bags_ecommerce: the application bootstrap `app.js`

A shallow embedding of the first-party logic of `src/app.js`:

* `getBreadcrumbs` (lines 76-89), the breadcrumb builder, with its loop
  counter `i` kept where the source keeps it: in the global object;
* the `app.use` registrations (lines 31-120) as an ordered stack of layers,
  run by a small model of the framework's dispatcher;
* the unmatched-route handler (lines 108-110) and the error-rendering
  handler (lines 113-120).

JavaScript strings are sequences of UTF-16 code units.
-/

namespace BagsEcommerce

/-! ## JavaScript strings -/

/-- One UTF-16 code unit. -/
abbrev CodeUnit := Nat

/-- A JavaScript string: its UTF-16 code units. -/
abbrev JsString := List CodeUnit

/-- The code units of one Unicode scalar value. -/
def utf16Char (c : Char) : JsString :=
  if c.toNat < 0x10000 then [c.toNat]
  else [0xD800 + (c.toNat - 0x10000) / 0x400, 0xDC00 + (c.toNat - 0x10000) % 0x400]

/-- The JavaScript string written by a literal. -/
def utf16 (s : String) : JsString :=
  (s.toList.map utf16Char).flatten

/-- The code unit of `"/"`. -/
def slash : CodeUnit := 47

/-- The method `String.prototype.substring(start)` with one argument. -/
def substring (s : JsString) (start : Nat) : JsString :=
  s.drop start

/-- The method `String.prototype.slice(start)` for a non-negative `start`. -/
def slice (s : JsString) (start : Nat) : JsString :=
  s.drop start

/-- The method `String.prototype.charAt(pos)`: the one-unit string at `pos`, or
the empty string when `pos` is out of range. -/
def charAt (s : JsString) (pos : Nat) : JsString :=
  match s.get? pos with
  | some c => [c]
  | none => []

/-- The method `String.prototype.split(sep)` for a separator of one code unit:
the pieces between the occurrences of `sep`; the empty string gives one empty
piece. -/
def split (sep : CodeUnit) : JsString → List JsString
  | [] => [[]]
  | c :: cs =>
    if c = sep then [] :: split sep cs
    else
      match split sep cs with
      | [] => [[c]]
      | piece :: pieces => (c :: piece) :: pieces

/-- The function `String.prototype.toUpperCase` restricted to ASCII letters; every
other code unit is left as it is.  It agrees with the built-in on strings of
ASCII code units and is the instance the concrete evaluations use. -/
def asciiUpper (s : JsString) : JsString :=
  s.map fun c => if 97 ≤ c ∧ c ≤ 122 then c - 32 else c

/-- String conversion of an operand of `+` that is a string or `null`. -/
def toStringOrNull : Option JsString → JsString
  | some s => s
  | none => utf16 "null"

/-! ## The breadcrumb builder -/

/-- A breadcrumb entry `{ name, url }`; `url = none` is JavaScript `null`. -/
structure Crumb where
  name : JsString
  url : Option JsString
  deriving DecidableEq, Repr

/-- A JavaScript array: a slot is `none` when it is a hole. -/
abbrev JsArray (α : Type) := List (Option α)

/-- The assignment `a[k] = v`: overwrites slot `k`, or extends the array up to
index `k`, leaving holes in between. -/
def JsArray.assign {α : Type} (a : JsArray α) (k : Nat) (v : α) : JsArray α :=
  if k < a.length then a.set k (some v)
  else a ++ List.replicate (k - a.length) none ++ [some v]

/-- The part of the global object the function touches: the binding of `i`
(`none` while no such global exists).  The source assigns `i` without declaring
it, so the counter lives here. -/
structure Globals where
  i : Option Nat
  deriving DecidableEq, Repr

/-- The local variables of one call of `getBreadcrumbs`. -/
structure Frame where
  rtn : JsArray Crumb
  acc : Option JsString
  arr : List JsString
  deriving DecidableEq, Repr

/-- How a run can end without a value. -/
inductive Fault where
  | referenceError
  | typeError
  | outOfFuel
  deriving DecidableEq, Repr

/-- The entry `{ name: "Home", url: "/" }`. -/
def home : Crumb := { name := utf16 "Home", url := some (utf16 "/") }

/-- The loop `for (...; i < arr.length; i++) { ... }` of lines 81-87, one
iteration per unit of fuel.  `upper` is `String.prototype.toUpperCase`. -/
def loop (upper : JsString → JsString) : Nat → Frame → Globals → Except Fault (Frame × Globals)
  | 0, _, _ => .error .outOfFuel
  | fuel + 1, f, g =>
    match g.i with
    | none => .error .referenceError
    | some i =>
      if i < f.arr.length then
        match f.arr.get? i with
        | none => .error .typeError
        | some seg =>
          let acc : Option JsString :=
            if (i : Int) ≠ (f.arr.length : Int) - 1 then
              some (toStringOrNull f.acc ++ utf16 "/" ++ seg)
            else none
          let rtn := f.rtn.assign (i + 1)
            { name := upper (charAt seg 0) ++ slice seg 1, url := acc }
          loop upper fuel { f with acc := acc, rtn := rtn } { g with i := some (i + 1) }
      else .ok (f, g)

/-- The function `getBreadcrumbs(url)` of lines 76-89: the returned array and
the global object after the call. -/
def getBreadcrumbs (upper : JsString → JsString) (fuel : Nat) (url : JsString) (g : Globals) :
    Except Fault (JsArray Crumb × Globals) :=
  let f0 : Frame :=
    { rtn := [some home], acc := some [], arr := split slash (substring url 1) }
  match loop upper fuel f0 { g with i := some 0 } with
  | .ok (f, g') => .ok (f.rtn, g')
  | .error e => .error e

/-! ## What the specification says about the breadcrumbs -/

/-- The segments of a path: the path without its first code unit, split on
`"/"` (the value of `arr` at line 79). -/
def segments (p : JsString) : List JsString :=
  split slash (substring p 1)

/-- A path that starts with `"/"`. -/
def startsWithSlash (p : JsString) : Prop :=
  p.head? = some slash

instance (p : JsString) : Decidable (startsWithSlash p) := by
  unfold startsWithSlash
  infer_instance

/-- A segment with only its first character upper-cased, the rest unchanged; the
empty segment stays empty. -/
def capitalizeFirst (upper : JsString → JsString) : JsString → JsString
  | [] => []
  | c :: rest => upper [c] ++ rest

/-- The cumulative URL `"/" + s_0 + "/" + ... + "/" + s_k`. -/
def cumulativeUrl (segs : List JsString) (k : Nat) : JsString :=
  (segs.take (k + 1)).flatMap fun s => slash :: s

/-- The label the code computes for a segment (line 84). -/
def labelOf (upper : JsString → JsString) (seg : JsString) : JsString :=
  upper (charAt seg 0) ++ slice seg 1

/-- The URL of the entry of segment `k` among `m`: cumulative for every segment
but the last, `null` for the last. -/
def urlAt (segs : List JsString) (k : Nat) : Option JsString :=
  if k + 1 < segs.length then some (cumulativeUrl segs k) else none

/-- The entry the specification gives for segment `k`. -/
def crumbAt (upper : JsString → JsString) (segs : List JsString) (k : Nat) : Crumb :=
  { name := capitalizeFirst upper (segs.getD k []), url := urlAt segs k }

/-- The breadcrumbs the specification gives for a list of segments: the Home
entry, then one entry per segment in order. -/
def expectedCrumbs (upper : JsString → JsString) (segs : List JsString) : List Crumb :=
  home :: (List.range segs.length).map (crumbAt upper segs)

/-- The number of non-empty segments of a path. -/
def nonEmptySegments (p : JsString) : Nat :=
  ((segments p).filter fun s => decide (s ≠ [])).length

/-- The entry the code builds for segment `k`. -/
def builtCrumb (upper : JsString → JsString) (segs : List JsString) (k : Nat) : Crumb :=
  { name := labelOf upper (segs.getD k []), url := urlAt segs k }

/-- The array the code has built once `k` segments are done. -/
def builtUpTo (upper : JsString → JsString) (segs : List JsString) (k : Nat) : JsArray Crumb :=
  some home :: (List.range k).map fun j => some (builtCrumb upper segs j)

/-! ## Errors, responses and the terminal handlers -/

/-- An error value as the error handler reads it: `err.message`, `err.status`
(`none` is `undefined`) and every other field of the error. -/
structure JsError where
  message : Option JsString
  status : Option Nat
  detail : List (JsString × JsString)
  deriving DecidableEq, Repr

/-- The call `createError(status)` of the package `http-errors`, for a status
between 400 and 599: an error that carries the status and whose message is the
reason phrase of the status.  `phrase` is the package's table of reason
phrases. -/
def createError (phrase : Nat → JsString) (status : Nat) : JsError :=
  { message := some (phrase status), status := some status, detail := [] }

/-- The value of `res.locals.error`: the error itself or the empty object. -/
inductive ErrorDetail where
  | full (err : JsError)
  | emptyObject
  deriving DecidableEq, Repr

/-- What the error handler puts in `res.locals` for the view. -/
structure ErrorLocals where
  message : Option JsString
  error : ErrorDetail
  deriving DecidableEq, Repr

/-- A rendered response: `res.status(status)`, then `res.render(view)` with the
locals. -/
structure Page where
  status : Nat
  view : JsString
  locals : ErrorLocals
  deriving DecidableEq, Repr

/-- The expression `status || fallback` on a number or `undefined`: the fallback
when the left operand is `undefined` or `0`. -/
def orDefault (status : Option Nat) (fallback : Nat) : Nat :=
  match status with
  | some s => if s = 0 then fallback else s
  | none => fallback

/-- The error handler of lines 113-120; `env` is `req.app.get("env")`. -/
def errorHandler (env : JsString) (err : JsError) : Page :=
  { locals :=
      { message := err.message,
        error := if env = utf16 "development" then .full err else .emptyObject },
    status := orDefault err.status 500,
    view := utf16 "error" }

/-! ## The middleware stack -/

/-- The functions handed to `app.use`, in the words of the source. -/
inductive Stage where
  | adminRouter
  | logger
  | jsonParser
  | urlencodedParser
  | cookieParser
  | staticFiles
  | session
  | flash
  | passportInitialize
  | passportSession
  | globalContext
  | breadcrumbs
  | productsRouter
  | usersRouter
  | pagesRouter
  | indexRouter
  | notFound
  | errorHandler
  deriving DecidableEq, Repr

/-- One `app.use` call: the mount path (`"/"` when none is given) and the
function. -/
structure Layer where
  mount : JsString
  stage : Stage
  deriving DecidableEq, Repr

/-- The `app.use` calls of lines 33-113, in the order they are made. -/
def stack : List Layer :=
  [ ⟨utf16 "/admin", .adminRouter⟩,
    ⟨utf16 "/", .logger⟩,
    ⟨utf16 "/", .jsonParser⟩,
    ⟨utf16 "/", .urlencodedParser⟩,
    ⟨utf16 "/", .cookieParser⟩,
    ⟨utf16 "/", .staticFiles⟩,
    ⟨utf16 "/", .session⟩,
    ⟨utf16 "/", .flash⟩,
    ⟨utf16 "/", .passportInitialize⟩,
    ⟨utf16 "/", .passportSession⟩,
    ⟨utf16 "/", .globalContext⟩,
    ⟨utf16 "/", .breadcrumbs⟩,
    ⟨utf16 "/products", .productsRouter⟩,
    ⟨utf16 "/user", .usersRouter⟩,
    ⟨utf16 "/pages", .pagesRouter⟩,
    ⟨utf16 "/", .indexRouter⟩,
    ⟨utf16 "/", .notFound⟩,
    ⟨utf16 "/", .errorHandler⟩ ]

/-- The routers among the stages. -/
def Stage.isRouter : Stage → Bool
  | .adminRouter | .productsRouter | .usersRouter | .pagesRouter | .indexRouter => true
  | _ => false

/-- A function of four parameters `(err, req, res, next)`: the framework calls it
only while an error is being forwarded. -/
def Stage.takesError : Stage → Bool
  | .errorHandler => true
  | _ => false

/-- The position of a stage in the registration order. -/
def registrationIndex (s : Stage) : Nat :=
  (stack.map Layer.stage).indexOf s

/-- A string with its ASCII capital letters made small.  The framework compares
mount paths without regard to case (`app.js` does not set `case sensitive
routing`); for the ASCII mounts of this application that is equality after this
folding. -/
def foldAscii (s : JsString) : JsString :=
  s.map fun c => if 65 ≤ c ∧ c ≤ 90 then c + 32 else c

/-- The framework's test of a mount path against a request path, letter case
aside: the root mount takes every path, another mount takes the path itself and
every path below it. -/
def mountMatches (mount path : JsString) : Bool :=
  mount == utf16 "/" || foldAscii path == foldAscii mount
    || (foldAscii mount ++ utf16 "/").isPrefixOf (foldAscii path)

/-- The routers whose mount takes a path, in registration order. -/
def matchingRouters (path : JsString) : List Stage :=
  (stack.filter fun l => l.stage.isRouter && mountMatches l.mount path).map Layer.stage

/-- The request as the dispatcher sees it: the path the mounts are tested
against. -/
structure Request where
  path : JsString
  deriving DecidableEq, Repr

/-- How a handler ends the response. -/
inductive Reply where
  | page (p : Page)
  | redirect (target : JsString)
  | other
  deriving DecidableEq, Repr

/-- What a layer does with a request: `next()`, `next(err)` (or a throw), or it
ends the response. -/
inductive Action where
  | next
  | nextErr (err : JsError)
  | respond (r : Reply)
  deriving DecidableEq, Repr

/-- The collaborators this file only wires together: what each third-party
stage does with a request, whether the `try` block of the global-context
middleware throws, and the reason phrases of `http-errors`. -/
structure Collaborators where
  behave : Stage → Request → Action
  contextThrows : Request → Bool
  phrase : Nat → JsString

/-- The global-context middleware of lines 61-73: `next()` when the `try` block
completes, `res.redirect("/")` when anything in it throws. -/
def globalContext (tryThrows : Bool) : Action :=
  if tryThrows then .respond (.redirect (utf16 "/")) else .next

/-- The unmatched-route handler of lines 108-110. -/
def notFoundHandler (phrase : Nat → JsString) : Action :=
  .nextErr (createError phrase 404)

/-- What a stage does when the framework calls it; `err` is the error being
forwarded, if any. -/
def handle (ext : Collaborators) (env : JsString) (s : Stage) (req : Request)
    (err : Option JsError) : Action :=
  match s, err with
  | .notFound, _ => notFoundHandler ext.phrase
  | .errorHandler, some e => .respond (.page (errorHandler env e))
  | .breadcrumbs, _ => .next
  | .globalContext, _ => globalContext (ext.contextThrows req)
  | s, _ => ext.behave s req

/-- How a dispatch ends: with a reply, or past the last layer (where the
framework's own final handler answers). -/
inductive Outcome where
  | replied (r : Reply)
  | unhandled (err : Option JsError)
  deriving DecidableEq, Repr

/-- The framework's dispatcher: the layers are tried in registration order; a
layer is called when its mount takes the path and it is an error handler
exactly when an error is being forwarded.  Returns the stages called, in
order, and the outcome. -/
def dispatch (ext : Collaborators) (env : JsString) :
    List Layer → Request → Option JsError → List Stage × Outcome
  | [], _, err => ([], .unhandled err)
  | l :: ls, req, err =>
    if mountMatches l.mount req.path && (l.stage.takesError == err.isSome) then
      match handle ext env l.stage req err with
      | .next => (l.stage :: (dispatch ext env ls req none).1, (dispatch ext env ls req none).2)
      | .nextErr e =>
        (l.stage :: (dispatch ext env ls req (some e)).1, (dispatch ext env ls req (some e)).2)
      | .respond r => ([l.stage], .replied r)
    else dispatch ext env ls req err

/-- Collaborators that all pass the request on; the reason phrase is the one of
404, the only status this application creates an error for. -/
def passAll : Collaborators :=
  { behave := fun _ _ => .next,
    contextThrows := fun _ => false,
    phrase := fun _ => utf16 "Not Found" }

/-- Collaborators whose routers and third-party middleware all pass the request
on, while the `try` block of the global-context middleware throws (the category
fetch fails). -/
def contextFails : Collaborators :=
  { behave := fun _ _ => .next,
    contextThrows := fun _ => true,
    phrase := fun _ => utf16 "Not Found" }

/-! ## Lemmas on the breadcrumb builder -/

theorem split_ne_nil (sep : CodeUnit) (s : JsString) : split sep s ≠ [] := by
  induction s with
  | nil => simp [split]
  | cons c cs ih =>
    unfold split
    split
    · simp
    · split <;> simp

theorem split_length_pos (sep : CodeUnit) (s : JsString) : 0 < (split sep s).length :=
  List.length_pos.mpr (split_ne_nil sep s)

theorem segments_length_pos (p : JsString) : 0 < (segments p).length :=
  split_length_pos _ _

theorem assign_at_length {α : Type} (a : JsArray α) (v : α) :
    a.assign a.length v = a ++ [some v] := by
  simp [JsArray.assign]

theorem labelOf_eq_capitalizeFirst (upper : JsString → JsString) (h0 : upper [] = [])
    (seg : JsString) : labelOf upper seg = capitalizeFirst upper seg := by
  cases seg with
  | nil => simp [labelOf, charAt, slice, capitalizeFirst, h0]
  | cons c rest => simp [labelOf, charAt, slice, capitalizeFirst]

theorem utf16_slash : utf16 "/" = [slash] := by
  decide

/-- One more segment extends the cumulative URL by `"/"` and the segment. -/
theorem cumulativeUrl_step (segs : List JsString) (k : Nat) (seg : JsString)
    (h : segs.get? k = some seg) :
    cumulativeUrl segs k
      = (if k = 0 then [] else cumulativeUrl segs (k - 1)) ++ utf16 "/" ++ seg := by
  have hk : segs[k]? = some seg := by simpa using h
  unfold cumulativeUrl
  rw [List.take_succ, List.flatMap_append, hk, utf16_slash]
  cases k with
  | zero => simp [List.flatMap]
  | succ j => simp [List.flatMap]

theorem builtUpTo_length (upper : JsString → JsString) (segs : List JsString) (k : Nat) :
    (builtUpTo upper segs k).length = k + 1 := by
  simp [builtUpTo]

theorem builtUpTo_succ (upper : JsString → JsString) (segs : List JsString) (k : Nat) :
    builtUpTo upper segs (k + 1) = builtUpTo upper segs k ++ [some (builtCrumb upper segs k)] := by
  simp [builtUpTo, List.range_succ]

/-- The loop invariant: started at counter `k` on the array of the first `k`
segments, with `n` segments left and more than `n` units of fuel, the loop ends
normally with the array of all segments and the counter at `arr.length`. -/
theorem loop_from (upper : JsString → JsString) (segs : List JsString) :
    ∀ (n k fuel : Nat) (f : Frame) (g : Globals),
      k + n = segs.length → n < fuel → f.arr = segs → g.i = some k →
      f.rtn = builtUpTo upper segs k →
      (k < segs.length → f.acc = some (if k = 0 then [] else cumulativeUrl segs (k - 1))) →
      ∃ f', loop upper fuel f g = .ok (f', { i := some segs.length }) ∧
        f'.rtn = builtUpTo upper segs segs.length := by
  intro n
  induction n with
  | zero =>
    intro k fuel f g hk hfuel harr hi hrtn _
    obtain ⟨fuel', rfl⟩ : ∃ fuel', fuel = fuel' + 1 := ⟨fuel - 1, by omega⟩
    have hk' : k = segs.length := by omega
    subst hk'
    refine ⟨f, ?_, hrtn⟩
    cases g with
    | mk gi =>
      simp only at hi
      subst hi
      simp [loop, harr]
  | succ n ih =>
    intro k fuel f g hk hfuel harr hi hrtn hacc
    obtain ⟨fuel', rfl⟩ : ∃ fuel', fuel = fuel' + 1 := ⟨fuel - 1, by omega⟩
    have hlt : k < segs.length := by omega
    have hseg : segs.get? k = some (segs.getD k []) := by
      simp [List.getD_eq_getElem?_getD, List.getElem?_eq_getElem hlt]
    have hurl : (if (k : Int) ≠ (segs.length : Int) - 1 then
          some (toStringOrNull f.acc ++ utf16 "/" ++ segs.getD k []) else none)
        = urlAt segs k := by
      unfold urlAt
      by_cases hlast : k + 1 < segs.length
      · have h1 : (k : Int) ≠ (segs.length : Int) - 1 := by omega
        rw [if_pos h1, if_pos hlast, hacc hlt, cumulativeUrl_step segs k _ hseg]
        rfl
      · have h1 : ¬ ((k : Int) ≠ (segs.length : Int) - 1) := by omega
        rw [if_neg h1, if_neg hlast]
    have hcrumb : Crumb.mk (upper (charAt (segs.getD k []) 0) ++ slice (segs.getD k []) 1)
        (urlAt segs k) = builtCrumb upper segs k := rfl
    have hassign := assign_at_length (builtUpTo upper segs k) (builtCrumb upper segs k)
    rw [builtUpTo_length] at hassign
    have hstep : loop upper (fuel' + 1) f g
        = loop upper fuel'
            { rtn := builtUpTo upper segs (k + 1), acc := urlAt segs k, arr := segs }
            { i := some (k + 1) } := by
      rw [loop]
      simp only [hi, harr, hlt, if_true, hseg, hurl]
      rw [hrtn, hcrumb, hassign, builtUpTo_succ]
    rw [hstep]
    refine ih (k + 1) fuel' _ _ (by omega) (by omega) rfl rfl rfl ?_
    intro hnext
    simp only [urlAt, if_pos hnext]
    simp

theorem getBreadcrumbs_built (upper : JsString → JsString) (fuel : Nat) (p : JsString)
    (g : Globals) (hfuel : (segments p).length < fuel) :
    getBreadcrumbs upper fuel p g
      = .ok (builtUpTo upper (segments p) (segments p).length,
          { i := some (segments p).length }) := by
  obtain ⟨f', hrun, hrtn⟩ := loop_from upper (segments p) (segments p).length 0 fuel
    { rtn := [some home], acc := some [], arr := segments p } { g with i := some 0 }
    (by omega) hfuel rfl rfl (by simp [builtUpTo]) (by intro _; simp)
  unfold getBreadcrumbs
  simp only [segments] at hrun hrtn ⊢
  rw [hrun]
  simp [hrtn]

theorem builtUpTo_eq_expected (upper : JsString → JsString) (h0 : upper [] = [])
    (segs : List JsString) :
    builtUpTo upper segs segs.length = (expectedCrumbs upper segs).map some := by
  simp [builtUpTo, expectedCrumbs, builtCrumb, crumbAt, labelOf_eq_capitalizeFirst upper h0]

theorem builtUpTo_getLast (upper : JsString → JsString) (segs : List JsString)
    (hpos : 0 < segs.length) :
    (builtUpTo upper segs segs.length).getLast?
      = some (some (builtCrumb upper segs (segs.length - 1))) := by
  obtain ⟨m, hm⟩ : ∃ m, segs.length = m + 1 := ⟨segs.length - 1, by omega⟩
  rw [hm, builtUpTo_succ, List.getLast?_concat]
  simp

theorem urlAt_last (segs : List JsString) : urlAt segs (segs.length - 1) = none := by
  unfold urlAt
  rw [if_neg (by omega)]

/-! ## Lemmas on the dispatcher -/

theorem mountMatches_root (path : JsString) : mountMatches (utf16 "/") path = true := by
  simp [mountMatches]

/-- Only stages of the stack are ever called. -/
theorem dispatch_called_mem (ext : Collaborators) (env : JsString) (req : Request) :
    ∀ (layers : List Layer) (err : Option JsError) (s : Stage),
      s ∈ (dispatch ext env layers req err).1 → s ∈ layers.map Layer.stage := by
  intro layers
  induction layers with
  | nil => intro err s h; simp [dispatch] at h
  | cons l ls ih =>
    intro err s h
    rw [dispatch] at h
    split at h
    · split at h
      · rcases List.mem_cons.mp h with h | h
        · simp [h]
        · simpa using Or.inr (by simpa using ih _ _ h)
      · rcases List.mem_cons.mp h with h | h
        · simp [h]
        · simpa using Or.inr (by simpa using ih _ _ h)
      · simp at h
        simp [h]
    · simpa using Or.inr (by simpa using ih _ _ h)

/-- While an error is forwarded, layers that are no error handlers are skipped. -/
theorem dispatch_skip (ext : Collaborators) (env : JsString) (req : Request) (e : JsError)
    (rest : List Layer) :
    ∀ (pre : List Layer), (∀ l ∈ pre, l.stage.takesError = false) →
      dispatch ext env (pre ++ rest) req (some e) = dispatch ext env rest req (some e) := by
  intro pre
  induction pre with
  | nil => intro _; rfl
  | cons a pre ih =>
    intro h
    have ha : a.stage.takesError = false := h a (by simp)
    rw [List.cons_append, dispatch]
    simp only [ha, Option.isSome_some, Bool.and_false, beq_iff_eq, Bool.false_eq_true,
      if_false]
    first
      | exact ih (fun l hl => h l (by simp [hl]))
      | (simp; exact ih (fun l hl => h l (by simp [hl])))

/-- A stage that is called was preceded by every earlier layer whose mount takes
the path. -/
theorem dispatch_runs_earlier (ext : Collaborators) (env : JsString) (req : Request)
    (m : JsString) (r : Stage) (post : List Layer) (hr : r.takesError = false)
    (hpost : r ∉ post.map Layer.stage) :
    ∀ (pre : List Layer), (∀ l ∈ pre, l.stage.takesError = false) →
      r ∉ pre.map Layer.stage →
      r ∈ (dispatch ext env (pre ++ ⟨m, r⟩ :: post) req none).1 →
      ∃ t1 t2, (dispatch ext env (pre ++ ⟨m, r⟩ :: post) req none).1 = t1 ++ r :: t2 ∧
        ∀ l ∈ pre, mountMatches l.mount req.path = true → l.stage ∈ t1 := by
  intro pre
  induction pre with
  | nil =>
    intro _ _ hran
    rw [List.nil_append, dispatch] at hran ⊢
    split at hran
    · rename_i hc
      rw [if_pos hc]
      split
      · exact ⟨[], _, rfl, by simp⟩
      · exact ⟨[], _, rfl, by simp⟩
      · exact ⟨[], [], rfl, by simp⟩
    · exact absurd (dispatch_called_mem ext env req _ _ _ hran) hpost
  | cons a pre ih =>
    intro hpre hnot hran
    have ha : a.stage.takesError = false := hpre a (by simp)
    have hne : r ≠ a.stage := by
      intro h
      exact hnot (by simp [h])
    have hnot' : r ∉ pre.map Layer.stage := by
      intro h
      exact hnot (by simp at h ⊢; exact Or.inr h)
    have hpre' : ∀ l ∈ pre, l.stage.takesError = false := fun l hl => hpre l (by simp [hl])
    rw [List.cons_append, dispatch] at hran ⊢
    split at hran
    · rename_i hc
      rw [if_pos hc]
      have hmatch : mountMatches a.mount req.path = true := by
        simp only [Bool.and_eq_true] at hc
        exact hc.1
      split at hran
      · rcases List.mem_cons.mp hran with h | h
        · exact absurd h hne
        · obtain ⟨t1, t2, ht, hall⟩ := ih hpre' hnot' h
          refine ⟨a.stage :: t1, t2, by simp [ht], ?_⟩
          intro l hl hm
          rcases List.mem_cons.mp hl with rfl | hl
          · simp
          · exact List.mem_cons_of_mem _ (hall l hl hm)
      · rename_i e hact
        rcases List.mem_cons.mp hran with h | h
        · exact absurd h hne
        · rw [dispatch_skip ext env req e _ pre hpre', dispatch] at h
          simp only [hr, Option.isSome_some, Bool.and_false, beq_iff_eq, Bool.false_eq_true,
            if_false] at h
          exact absurd (dispatch_called_mem ext env req _ _ _ (by simpa using h)) hpost
      · simp at hran
        exact absurd hran hne
    · rename_i hc
      rw [if_neg hc]
      have hnm : ¬ mountMatches a.mount req.path = true := by
        intro hm
        apply hc
        simp [hm, ha]
      obtain ⟨t1, t2, ht, hall⟩ := ih hpre' hnot' hran
      refine ⟨t1, t2, ht, ?_⟩
      intro l hl hm
      rcases List.mem_cons.mp hl with rfl | hl
      · exact absurd hm hnm
      · exact hall l hl hm

/-- Layers that all pass the request on are followed by the layers after them:
what those call is called, and their outcome is the outcome. -/
theorem dispatch_pass (ext : Collaborators) (env : JsString) (req : Request)
    (rest : List Layer) :
    ∀ (pre : List Layer), (∀ l ∈ pre, l.stage.takesError = false) →
      (∀ l ∈ pre, mountMatches l.mount req.path = true →
        handle ext env l.stage req none = .next) →
      (∀ s ∈ (dispatch ext env rest req none).1, s ∈ (dispatch ext env (pre ++ rest) req none).1) ∧
      (dispatch ext env (pre ++ rest) req none).2 = (dispatch ext env rest req none).2 := by
  intro pre
  induction pre with
  | nil => intro _ _; exact ⟨fun _ h => h, rfl⟩
  | cons a pre ih =>
    intro hpre hnext
    have ih' := ih (fun l hl => hpre l (by simp [hl])) (fun l hl => hnext l (by simp [hl]))
    rw [List.cons_append, dispatch]
    split
    · rename_i hc
      have hmatch : mountMatches a.mount req.path = true := by
        simp only [Bool.and_eq_true] at hc
        exact hc.1
      rw [hnext a (by simp) hmatch]
      exact ⟨fun s hs => List.mem_cons_of_mem _ (ih'.1 s hs), ih'.2⟩
    · exact ih'

/-- Once the unmatched-route handler is called, the outcome is the error page
of the 404 error, whatever the layers before it did. -/
theorem dispatch_notFound_called (ext : Collaborators) (env : JsString) (req : Request) :
    ∀ (pre : List Layer) (err : Option JsError), Stage.notFound ∉ pre.map Layer.stage →
      Stage.notFound ∈ (dispatch ext env
        (pre ++ [⟨utf16 "/", .notFound⟩, ⟨utf16 "/", .errorHandler⟩]) req err).1 →
      (dispatch ext env
        (pre ++ [⟨utf16 "/", .notFound⟩, ⟨utf16 "/", .errorHandler⟩]) req err).2
        = .replied (.page (errorHandler env (createError ext.phrase 404))) := by
  intro pre
  induction pre with
  | nil =>
    intro err _ hran
    cases err with
    | none =>
      simp [dispatch, mountMatches_root, Stage.takesError, handle, notFoundHandler]
    | some e =>
      simp [dispatch, mountMatches_root, Stage.takesError, handle] at hran
  | cons a pre ih =>
    intro err hnot hran
    have hne : Stage.notFound ≠ a.stage := by
      intro h
      exact hnot (by simp [h])
    have hnot' : Stage.notFound ∉ pre.map Layer.stage := by
      intro h
      exact hnot (by simp at h ⊢; exact Or.inr h)
    rw [List.cons_append, dispatch] at hran ⊢
    split at hran
    · rename_i hc
      rw [if_pos hc]
      split at hran
      · rcases List.mem_cons.mp hran with h | h
        · exact absurd h hne
        · exact ih _ hnot' h
      · rcases List.mem_cons.mp hran with h | h
        · exact absurd h hne
        · exact ih _ hnot' h
      · simp at hran
        exact absurd hran hne
    · rename_i hc
      rw [if_neg hc]
      exact ih _ hnot' hran

/-- The statement of `dispatch_runs_earlier` on the stack of this application,
split at one of its stages. -/
theorem stack_runs_earlier (ext : Collaborators) (env : JsString) (req : Request)
    (pre post : List Layer) (m : JsString) (r : Stage)
    (hstack : stack = pre ++ ⟨m, r⟩ :: post)
    (hpre : ∀ l ∈ pre, l.stage.takesError = false) (hr : r.takesError = false)
    (hnotpre : r ∉ pre.map Layer.stage) (hnotpost : r ∉ post.map Layer.stage)
    (hran : r ∈ (dispatch ext env stack req none).1) :
    ∃ t1 t2, (dispatch ext env stack req none).1 = t1 ++ r :: t2 ∧
      ∀ l ∈ pre, mountMatches l.mount req.path = true → l.stage ∈ t1 := by
  rw [hstack] at hran ⊢
  exact dispatch_runs_earlier ext env req m r post hr hnotpost pre hpre hnotpre hran

/-! ## The breadcrumb builder: claims -/

/-- C1: for every path that starts with `"/"`, `getBreadcrumbs` returns a
non-empty array whose first entry is `{name: "Home", url: "/"}` and whose last
entry has `url = null`. -/
theorem getBreadcrumbs_home_first_null_last (upper : JsString → JsString) (fuel : Nat)
    (p : JsString) (g : Globals) (_hp : startsWithSlash p)
    (hfuel : (segments p).length < fuel) :
    ∃ r g', getBreadcrumbs upper fuel p g = .ok (r, g') ∧ r ≠ [] ∧
      r.head? = some (some home) ∧ ∃ c, r.getLast? = some (some c) ∧ c.url = none := by
  refine ⟨_, _, getBreadcrumbs_built upper fuel p g hfuel, ?_, ?_, ?_⟩
  · simp [builtUpTo]
  · simp [builtUpTo]
  · exact ⟨_, builtUpTo_getLast upper _ (segments_length_pos p), urlAt_last _⟩

theorem getBreadcrumbs_home_first_null_last_witness :
    startsWithSlash (utf16 "/products/shoes") ∧
    (segments (utf16 "/products/shoes")).length < 3 ∧
    ∃ r g', getBreadcrumbs asciiUpper 3 (utf16 "/products/shoes") { i := none } = .ok (r, g') ∧
      r ≠ [] ∧ r.head? = some (some home) ∧ ∃ c, r.getLast? = some (some c) ∧ c.url = none :=
  ⟨by decide, by decide,
    getBreadcrumbs_home_first_null_last asciiUpper 3 (utf16 "/products/shoes") { i := none }
      (by decide) (by decide)⟩

/-- C2: for every path that starts with `"/"`, with segments `s_0 .. s_{m-1}`,
`getBreadcrumbs` returns the Home entry followed by one entry per segment in
order; entry `k+1` has the name `s_k` with only its first character upper-cased
and the URL `"/" + s_0 + ... + "/" + s_k` when `k < m-1`, `null` when
`k = m-1`.  (`upper` is `toUpperCase`, which maps the empty string to itself.) -/
theorem getBreadcrumbs_eq_expected (upper : JsString → JsString) (fuel : Nat)
    (p : JsString) (g : Globals) (h0 : upper [] = []) (_hp : startsWithSlash p)
    (hfuel : (segments p).length < fuel) :
    ∃ g', getBreadcrumbs upper fuel p g
      = .ok ((expectedCrumbs upper (segments p)).map some, g') := by
  refine ⟨{ i := some (segments p).length }, ?_⟩
  rw [getBreadcrumbs_built upper fuel p g hfuel, builtUpTo_eq_expected upper h0]

theorem getBreadcrumbs_eq_expected_witness :
    asciiUpper [] = [] ∧ startsWithSlash (utf16 "/products/shoes") ∧
    (segments (utf16 "/products/shoes")).length < 3 ∧
    ∃ g', getBreadcrumbs asciiUpper 3 (utf16 "/products/shoes") { i := none }
      = .ok ([some { name := utf16 "Home", url := some (utf16 "/") },
              some { name := utf16 "Products", url := some (utf16 "/products") },
              some { name := utf16 "Shoes", url := none }], g') :=
  ⟨by decide, by decide, by decide,
    getBreadcrumbs_eq_expected asciiUpper 3 (utf16 "/products/shoes") { i := none }
      (by decide) (by decide) (by decide)⟩

/-- C3, as the code has it: for every path that starts with `"/"`, the returned
array has one entry more than the path has segments, the empty segments
counted; it has `n + 1` entries, `n` the number of non-empty segments, when no
segment is empty. -/
theorem getBreadcrumbs_length (upper : JsString → JsString) (fuel : Nat)
    (p : JsString) (g : Globals) (_hp : startsWithSlash p)
    (hfuel : (segments p).length < fuel) :
    ∃ r g', getBreadcrumbs upper fuel p g = .ok (r, g') ∧
      r.length = (segments p).length + 1 ∧
      ((∀ s ∈ segments p, s ≠ []) → r.length = nonEmptySegments p + 1) := by
  refine ⟨_, _, getBreadcrumbs_built upper fuel p g hfuel, builtUpTo_length _ _ _, ?_⟩
  intro hall
  have hfilter : (segments p).filter (fun s => decide (s ≠ [])) = segments p :=
    List.filter_eq_self.mpr (fun s hs => by simpa using hall s hs)
  rw [builtUpTo_length, nonEmptySegments, hfilter]

theorem getBreadcrumbs_length_witness :
    startsWithSlash (utf16 "/a//b/") ∧ (segments (utf16 "/a//b/")).length < 5 ∧
    ∃ r g', getBreadcrumbs asciiUpper 5 (utf16 "/a//b/") { i := none } = .ok (r, g') ∧
      r.length = (segments (utf16 "/a//b/")).length + 1 ∧
      ((∀ s ∈ segments (utf16 "/a//b/"), s ≠ []) →
        r.length = nonEmptySegments (utf16 "/a//b/") + 1) :=
  ⟨by decide, by decide,
    getBreadcrumbs_length asciiUpper 5 (utf16 "/a//b/") { i := none } (by decide) (by decide)⟩

/-- C3 fails at the root path: `"/"` has no non-empty segment, and
`getBreadcrumbs("/")` has two entries, not one. -/
theorem getBreadcrumbs_length_root :
    startsWithSlash (utf16 "/") ∧ nonEmptySegments (utf16 "/") = 0 ∧
    getBreadcrumbs asciiUpper 2 (utf16 "/") { i := none }
      = .ok ([some home, some { name := [], url := none }], { i := some 1 }) ∧
    ([some home, some { name := [], url := none }] : JsArray Crumb).length
      ≠ nonEmptySegments (utf16 "/") + 1 :=
  ⟨by decide, by decide, rfl, by decide⟩

/-- C4: for every path that starts with `"/"` the call returns normally, with
one entry per segment, and the entry of an empty segment has the empty name; in
particular `getBreadcrumbs("/")` is `[{name: "Home", url: "/"}, {name: "",
url: null}]`.  (`upper` is `toUpperCase`, which maps the empty string to
itself.) -/
theorem getBreadcrumbs_empty_segment (upper : JsString → JsString) (fuel : Nat)
    (p : JsString) (g : Globals) (h0 : upper [] = []) (_hp : startsWithSlash p)
    (hfuel : (segments p).length < fuel) :
    ∃ r g', getBreadcrumbs upper fuel p g = .ok (r, g') ∧
      r.length = (segments p).length + 1 ∧
      (∀ k, (segments p).get? k = some [] →
        ∃ c, r.get? (k + 1) = some (some c) ∧ c.name = []) ∧
      (p = utf16 "/" → r = [some home, some { name := [], url := none }]) := by
  refine ⟨_, _, getBreadcrumbs_built upper fuel p g hfuel, builtUpTo_length _ _ _, ?_, ?_⟩
  · intro k hk
    have hk' : (segments p)[k]? = some [] := by simpa using hk
    have hlt : k < (segments p).length := by
      by_contra hge
      rw [List.getElem?_eq_none (by omega)] at hk'
      simp at hk'
    refine ⟨builtCrumb upper (segments p) k, ?_, ?_⟩
    · simp [builtUpTo, List.getElem?_range hlt]
    · simp [builtCrumb, List.getD_eq_getElem?_getD, hk', labelOf, charAt, slice, h0]
  · intro hroot
    subst hroot
    have hsegs : segments (utf16 "/") = [[]] := by decide
    rw [hsegs]
    simp [builtUpTo, builtCrumb, labelOf, charAt, slice, h0, urlAt, List.range_succ]

theorem getBreadcrumbs_empty_segment_witness :
    asciiUpper [] = [] ∧ startsWithSlash (utf16 "/") ∧ (segments (utf16 "/")).length < 2 ∧
    ∃ r g', getBreadcrumbs asciiUpper 2 (utf16 "/") { i := none } = .ok (r, g') ∧
      r.length = (segments (utf16 "/")).length + 1 ∧
      (∀ k, (segments (utf16 "/")).get? k = some [] →
        ∃ c, r.get? (k + 1) = some (some c) ∧ c.name = []) ∧
      (utf16 "/" = utf16 "/" → r = [some home, some { name := [], url := none }]) :=
  ⟨by decide, by decide, by decide,
    getBreadcrumbs_empty_segment asciiUpper 2 (utf16 "/") { i := none }
      (by decide) (by decide) (by decide)⟩

/-- C10 fails on the code: the loop counter `i` is assigned without a
declaration, so the call writes the global `i`.  On `"/products/shoes"`, with
no global `i` before the call, the global `i` is `2` after it. -/
theorem getBreadcrumbs_writes_global_i :
    getBreadcrumbs asciiUpper 3 (utf16 "/products/shoes") { i := none }
      = .ok ([some home,
              some { name := utf16 "Products", url := some (utf16 "/products") },
              some { name := utf16 "Shoes", url := none }], { i := some 2 }) ∧
    ({ i := some 2 } : Globals) ≠ { i := none } :=
  ⟨rfl, by decide⟩

/-! ## The middleware stack: claims -/

/-- C5 fails at the admin router: `app.use("/admin", adminRouter)` is the first
registration, ten places before the global-context middleware, and a request
below `/admin` reaches the admin router before any other stage has run. -/
theorem admin_router_before_context :
    registrationIndex .adminRouter = 0 ∧ registrationIndex .globalContext = 10 ∧
    ¬ (registrationIndex .globalContext < registrationIndex .adminRouter) ∧
    (dispatch passAll (utf16 "development") stack { path := utf16 "/admin/orders" } none).1
      = [.adminRouter, .logger, .jsonParser, .urlencodedParser, .cookieParser, .staticFiles,
         .session, .flash, .passportInitialize, .passportSession, .globalContext,
         .breadcrumbs, .indexRouter, .notFound, .errorHandler] :=
  ⟨by decide, by decide, by decide, by decide⟩

/-- C5, as the code has it: the global-context middleware is registered after
the session, flash and passport middleware and before the routers mounted at
`/products`, `/user`, `/pages` and `/`, so that whenever one of these four
routers is called, the logging, parsing, static, session, flash, passport and
global-context stages were called before it; the `/admin` router is registered
before all of these stages. -/
theorem context_before_site_routers (ext : Collaborators) (env : JsString) (req : Request)
    (r : Stage)
    (hr : r ∈ [Stage.productsRouter, Stage.usersRouter, Stage.pagesRouter, Stage.indexRouter]) :
    (∀ s ∈ [Stage.session, Stage.flash, Stage.passportInitialize, Stage.passportSession],
      registrationIndex s < registrationIndex .globalContext) ∧
    registrationIndex .globalContext < registrationIndex r ∧
    (∀ s ∈ [Stage.logger, Stage.jsonParser, Stage.urlencodedParser, Stage.cookieParser,
        Stage.staticFiles, Stage.session, Stage.flash, Stage.passportInitialize,
        Stage.passportSession, Stage.globalContext],
      registrationIndex .adminRouter < registrationIndex s) ∧
    (r ∈ (dispatch ext env stack req none).1 →
      ∃ t1 t2, (dispatch ext env stack req none).1 = t1 ++ r :: t2 ∧
        ∀ s ∈ [Stage.logger, Stage.jsonParser, Stage.urlencodedParser, Stage.cookieParser,
            Stage.staticFiles, Stage.session, Stage.flash, Stage.passportInitialize,
            Stage.passportSession, Stage.globalContext],
          s ∈ t1) := by
  refine ⟨by decide, ?_, by decide, ?_⟩
  · revert r
    decide
  · intro hran
    have key : ∃ (pre post : List Layer) (m : JsString),
        stack = pre ++ ⟨m, r⟩ :: post ∧ (∀ l ∈ pre, l.stage.takesError = false) ∧
        r.takesError = false ∧ r ∉ pre.map Layer.stage ∧ r ∉ post.map Layer.stage ∧
        ∀ s ∈ [Stage.logger, Stage.jsonParser, Stage.urlencodedParser, Stage.cookieParser,
            Stage.staticFiles, Stage.session, Stage.flash, Stage.passportInitialize,
            Stage.passportSession, Stage.globalContext],
          (⟨utf16 "/", s⟩ : Layer) ∈ pre := by
      simp only [List.mem_cons, List.mem_singleton, List.not_mem_nil, or_false] at hr
      rcases hr with rfl | rfl | rfl | rfl
      · exact ⟨stack.take 12, stack.drop 13, utf16 "/products",
          by decide, by decide, by decide, by decide, by decide, by decide⟩
      · exact ⟨stack.take 13, stack.drop 14, utf16 "/user",
          by decide, by decide, by decide, by decide, by decide, by decide⟩
      · exact ⟨stack.take 14, stack.drop 15, utf16 "/pages",
          by decide, by decide, by decide, by decide, by decide, by decide⟩
      · exact ⟨stack.take 15, stack.drop 16, utf16 "/",
          by decide, by decide, by decide, by decide, by decide, by decide⟩
    obtain ⟨pre, post, m, hstack, hpre, hrt, hnotpre, hnotpost, hmem⟩ := key
    obtain ⟨t1, t2, ht, hall⟩ :=
      stack_runs_earlier ext env req pre post m r hstack hpre hrt hnotpre hnotpost hran
    exact ⟨t1, t2, ht, fun s hs => hall ⟨utf16 "/", s⟩ (hmem s hs) (mountMatches_root _)⟩

theorem context_before_site_routers_witness :
    Stage.productsRouter
      ∈ [Stage.productsRouter, Stage.usersRouter, Stage.pagesRouter, Stage.indexRouter] ∧
    Stage.productsRouter
      ∈ (dispatch passAll (utf16 "production") stack { path := utf16 "/products/x" } none).1 ∧
    ∃ t1 t2,
      (dispatch passAll (utf16 "production") stack { path := utf16 "/products/x" } none).1
        = t1 ++ Stage.productsRouter :: t2 ∧
      ∀ s ∈ [Stage.logger, Stage.jsonParser, Stage.urlencodedParser, Stage.cookieParser,
          Stage.staticFiles, Stage.session, Stage.flash, Stage.passportInitialize,
          Stage.passportSession, Stage.globalContext],
        s ∈ t1 :=
  ⟨by decide, by decide,
    (context_before_site_routers passAll (utf16 "production") { path := utf16 "/products/x" }
      Stage.productsRouter (by decide)).2.2.2 (by decide)⟩

/-- C6: the five routers are mounted at `/admin`, `/products`, `/user`, `/pages`
and `/`, registered in that order with `/` last; for every path below one of
the first four mounts, the routers whose mount takes the path are that router
and then the index router, and whenever the index router is called that router
was called before it. -/
theorem router_mount_order (ext : Collaborators) (env : JsString) (req : Request)
    (l : Layer) (rest : JsString)
    (hl : l ∈ [(⟨utf16 "/admin", .adminRouter⟩ : Layer), ⟨utf16 "/products", .productsRouter⟩,
      ⟨utf16 "/user", .usersRouter⟩, ⟨utf16 "/pages", .pagesRouter⟩])
    (hpath : req.path = l.mount ++ utf16 "/" ++ rest) :
    stack.filter (fun l => l.stage.isRouter)
      = [⟨utf16 "/admin", .adminRouter⟩, ⟨utf16 "/products", .productsRouter⟩,
         ⟨utf16 "/user", .usersRouter⟩, ⟨utf16 "/pages", .pagesRouter⟩,
         ⟨utf16 "/", .indexRouter⟩] ∧
    matchingRouters req.path = [l.stage, .indexRouter] ∧
    (Stage.indexRouter ∈ (dispatch ext env stack req none).1 →
      ∃ t1 t2, (dispatch ext env stack req none).1 = t1 ++ Stage.indexRouter :: t2 ∧
        l.stage ∈ t1) := by
  have hfold : foldAscii (l.mount ++ utf16 "/" ++ rest)
      = (foldAscii l.mount ++ utf16 "/") ++ foldAscii rest := by
    simp [foldAscii, utf16, utf16Char]
  have hmatch : mountMatches l.mount req.path = true := by
    unfold mountMatches
    rw [hpath, hfold]
    simp
  refine ⟨by decide, ?_, ?_⟩
  · simp only [List.mem_cons, List.mem_singleton, List.not_mem_nil, or_false] at hl
    rcases hl with rfl | rfl | rfl | rfl <;>
      simp [hpath, matchingRouters, stack, mountMatches, foldAscii, utf16, utf16Char,
        Stage.isRouter]
  · intro hran
    obtain ⟨t1, t2, ht, hall⟩ :=
      stack_runs_earlier ext env req (stack.take 15) (stack.drop 16) (utf16 "/")
        Stage.indexRouter (by decide) (by decide) (by decide) (by decide) (by decide) hran
    refine ⟨t1, t2, ht, hall l ?_ hmatch⟩
    simp only [List.mem_cons, List.mem_singleton, List.not_mem_nil, or_false] at hl
    rcases hl with rfl | rfl | rfl | rfl <;> decide

theorem router_mount_order_witness :
    (⟨utf16 "/products", .productsRouter⟩ : Layer)
      ∈ [(⟨utf16 "/admin", .adminRouter⟩ : Layer), ⟨utf16 "/products", .productsRouter⟩,
        ⟨utf16 "/user", .usersRouter⟩, ⟨utf16 "/pages", .pagesRouter⟩] ∧
    utf16 "/products/x" = utf16 "/products" ++ utf16 "/" ++ utf16 "x" ∧
    matchingRouters (utf16 "/products/x") = [.productsRouter, .indexRouter] :=
  ⟨by decide, by decide,
    (router_mount_order passAll (utf16 "production") { path := utf16 "/products/x" }
      ⟨utf16 "/products", .productsRouter⟩ (utf16 "x") (by decide) (by decide)).2.1⟩

/-! ## The error boundary: claims -/

/-- C7: for every error forwarded to the error handler, the response status is
`err.status` when the error carries a status code (a non-zero number) and 500
when it has none, and the view `"error"` is rendered with
`res.locals.message = err.message`. -/
theorem errorHandler_status_and_view (env : JsString) (err : JsError) :
    (∀ s, err.status = some s → s ≠ 0 → (errorHandler env err).status = s) ∧
    (err.status = none → (errorHandler env err).status = 500) ∧
    (errorHandler env err).view = utf16 "error" ∧
    (errorHandler env err).locals.message = err.message := by
  refine ⟨?_, ?_, rfl, rfl⟩
  · intro s hs hne
    simp [errorHandler, orDefault, hs, hne]
  · intro hs
    simp [errorHandler, orDefault, hs]

theorem errorHandler_status_and_view_witness :
    (errorHandler (utf16 "production")
      { message := some (utf16 "Forbidden"), status := some 403, detail := [] }).status = 403 ∧
    (errorHandler (utf16 "production")
      { message := some (utf16 "boom"), status := none, detail := [] }).status = 500 :=
  ⟨(errorHandler_status_and_view (utf16 "production")
      { message := some (utf16 "Forbidden"), status := some 403, detail := [] }).1 403 rfl
      (by decide),
   (errorHandler_status_and_view (utf16 "production")
      { message := some (utf16 "boom"), status := none, detail := [] }).2.1 rfl⟩

/-- C8 fails when a middleware answers first: with every router passing the
request on, a failing category fetch makes the global-context middleware
redirect to `"/"`; the unmatched-route handler is never called and the answer
is no 404. -/
theorem context_redirect_skips_notFound :
    (∀ l ∈ stack, l.stage.isRouter = true →
      handle contextFails (utf16 "production") l.stage { path := utf16 "/nowhere" } none
        = .next) ∧
    dispatch contextFails (utf16 "production") stack { path := utf16 "/nowhere" } none
      = ([.logger, .jsonParser, .urlencodedParser, .cookieParser, .staticFiles, .session,
          .flash, .passportInitialize, .passportSession, .globalContext],
         .replied (.redirect (utf16 "/"))) ∧
    Stage.notFound
      ∉ (dispatch contextFails (utf16 "production") stack { path := utf16 "/nowhere" } none).1 :=
  ⟨by decide, by decide, by decide⟩

/-- C8, as the code has it: for every request that every layer registered
before the unmatched-route handler passes on (no middleware answers or forwards
an error, no mounted router handles it), that handler is called and forwards an
error with status 404, and the error handler answers with status 404, rendered
through the view `"error"`. -/
theorem unmatched_route_gives_404 (ext : Collaborators) (env : JsString) (req : Request)
    (hpass : ∀ l ∈ stack, l.stage ≠ .notFound → l.stage ≠ .errorHandler →
      mountMatches l.mount req.path = true → handle ext env l.stage req none = .next) :
    Stage.notFound ∈ (dispatch ext env stack req none).1 ∧
    handle ext env .notFound req none = .nextErr (createError ext.phrase 404) ∧
    (createError ext.phrase 404).status = some 404 ∧
    (dispatch ext env stack req none).2
      = .replied (.page (errorHandler env (createError ext.phrase 404))) ∧
    (errorHandler env (createError ext.phrase 404)).status = 404 ∧
    (errorHandler env (createError ext.phrase 404)).view = utf16 "error" := by
  have hstack : stack = stack.take 16 ++ [⟨utf16 "/", .notFound⟩, ⟨utf16 "/", .errorHandler⟩] := by
    decide
  have hpre : ∀ l ∈ stack.take 16, l.stage.takesError = false := by decide
  have hsub : ∀ l ∈ stack.take 16,
      l ∈ stack ∧ l.stage ≠ .notFound ∧ l.stage ≠ .errorHandler := by decide
  have hreach : Stage.notFound ∈ (dispatch ext env stack req none).1 := by
    rw [hstack]
    apply (dispatch_pass ext env req _ (stack.take 16) hpre
      (fun l hl hm => hpass l (hsub l hl).1 (hsub l hl).2.1 (hsub l hl).2.2 hm)).1
    simp [dispatch, mountMatches_root, Stage.takesError, handle, notFoundHandler]
  refine ⟨hreach, rfl, rfl, ?_, rfl, rfl⟩
  rw [hstack] at hreach ⊢
  exact dispatch_notFound_called ext env req (stack.take 16) none (by decide) hreach

theorem unmatched_route_gives_404_witness :
    (∀ l ∈ stack, l.stage ≠ .notFound → l.stage ≠ .errorHandler →
      mountMatches l.mount (utf16 "/nowhere") = true →
      handle passAll (utf16 "production") l.stage { path := utf16 "/nowhere" } none = .next) ∧
    Stage.notFound
      ∈ (dispatch passAll (utf16 "production") stack { path := utf16 "/nowhere" } none).1 ∧
    (dispatch passAll (utf16 "production") stack { path := utf16 "/nowhere" } none).2
      = .replied (.page (errorHandler (utf16 "production") (createError passAll.phrase 404))) :=
  ⟨by decide,
    (unmatched_route_gives_404 passAll (utf16 "production") { path := utf16 "/nowhere" }
      (by decide)).1,
    (unmatched_route_gives_404 passAll (utf16 "production") { path := utf16 "/nowhere" }
      (by decide)).2.2.2.1⟩

/-- C9: for every error and every runtime mode, the error handler hands the
error object to the view only outside production; in production
`res.locals.error` is the empty object and what the view gets depends on no
field of the error but its message. -/
theorem errorHandler_detail_outside_production (env : JsString) (err : JsError) :
    ((errorHandler env err).locals.error = .full err → env ≠ utf16 "production") ∧
    (env = utf16 "production" →
      (errorHandler env err).locals.error = .emptyObject ∧
      ∀ err' : JsError, err'.message = err.message →
        (errorHandler env err').locals = (errorHandler env err).locals) := by
  constructor
  · intro hfull henv
    subst henv
    simp [errorHandler] at hfull
    revert hfull
    decide
  · intro henv
    subst henv
    have hne : ¬ (utf16 "production" = utf16 "development") := by decide
    refine ⟨by simp [errorHandler, hne], ?_⟩
    intro err' hmsg
    simp [errorHandler, hne, hmsg]

theorem errorHandler_detail_outside_production_witness :
    utf16 "production" = utf16 "production" ∧
    (errorHandler (utf16 "production")
      { message := some (utf16 "boom"), status := some 500,
        detail := [(utf16 "stack", utf16 "at secret.js:1")] }).locals.error = .emptyObject :=
  ⟨rfl,
    ((errorHandler_detail_outside_production (utf16 "production")
      { message := some (utf16 "boom"), status := some 500,
        detail := [(utf16 "stack", utf16 "at secret.js:1")] }).2 rfl).1⟩

end BagsEcommerce
